import Mathlib

/-!
Verification of the fs_usage_sys line parser, operation classifier, event
filter and monitor lifecycle (src/src/lib.rs, src/src/builder.rs).

Rust strings are modelled as Lean `String`s; every string primitive the
source uses (`split_whitespace`, `starts_with`, `ends_with`, `contains`,
`split(pat).next()`, `split(pat).nth(1)`, `trim`, `replace`, `rfind`,
`parse::<u32>`) is given a structurally recursive definition over the
underlying character list, so that all definitions evaluate by `decide`.
-/

/-- Whitespace test used by the tokenizer (models char::is_whitespace for
the ASCII range that fs_usage output uses). -/
def wsChar (c : Char) : Bool :=
  c = ' ' || c = '\t' || c = '\n' || c = '\r'

/-- Accumulator-style splitter on whitespace runs. -/
def splitWsAux : List Char → List Char → List String
  | [], cur => if cur.isEmpty then [] else [String.mk cur.reverse]
  | c :: rest, cur =>
    if wsChar c then
      if cur.isEmpty then splitWsAux rest []
      else String.mk cur.reverse :: splitWsAux rest []
    else splitWsAux rest (c :: cur)

/-- Models Rust `line.split_whitespace()` (src/src/lib.rs line 294):
splits on runs of whitespace, dropping empty tokens. -/
def splitWhitespace (s : String) : List String :=
  splitWsAux s.data []

/-- Models Rust `s.starts_with(pat)` for a string pattern. -/
def strStartsWith (s pat : String) : Bool :=
  pat.data.isPrefixOf s.data

/-- Models Rust `s.ends_with(pat)` for a string pattern. -/
def strEndsWith (s pat : String) : Bool :=
  pat.data.isSuffixOf s.data

/-- Models Rust `s.contains(c)` for a char pattern. -/
def strContainsChar (s : String) (c : Char) : Bool :=
  s.data.contains c

/-- Does `pat` occur as a contiguous substring of `s`? (Rust `s.contains(pat)`.) -/
def containsSubAux (pat : List Char) : List Char → Bool
  | [] => pat.isPrefixOf []
  | c :: rest => pat.isPrefixOf (c :: rest) || containsSubAux pat rest

/-- Models Rust `s.contains(pat)` for a string pattern. -/
def strContainsSub (s pat : String) : Bool :=
  containsSubAux pat.data s.data

/-- Characters of `s` strictly before the first occurrence of `pat`
(all of `s` when `pat` does not occur). Models `s.split(pat).next()`,
which always yields this first segment. -/
def takeUntilSubList (pat : List Char) : List Char → List Char
  | [] => []
  | c :: rest =>
    if pat.isPrefixOf (c :: rest) then []
    else c :: takeUntilSubList pat rest

/-- Characters of `s` strictly after the first occurrence of `pat`;
`none` when `pat` does not occur (for non-empty `pat`). -/
def dropThroughSub (pat : List Char) : List Char → Option (List Char)
  | [] => if pat.isPrefixOf [] then some [] else none
  | c :: rest =>
    if pat.isPrefixOf (c :: rest) then some (List.drop (pat.length - 1) rest)
    else dropThroughSub pat rest

/-- Models Rust `s.split(pat).nth(1)`: the segment strictly between the
first and second occurrences of `pat` (to the end of `s` when `pat`
occurs exactly once); `none` when `pat` does not occur. -/
def nth1Str (s pat : String) : Option String :=
  (dropThroughSub pat.data s.data).map (fun r => String.mk (takeUntilSubList pat.data r))

/-- Models Rust `s.trim()`: strips whitespace from both ends. -/
def strTrim (s : String) : String :=
  String.mk (((s.data.dropWhile wsChar).reverse.dropWhile wsChar).reverse)

/-- Fuelled worker for `strReplace`; the fuel is the length of the text,
which suffices because every step consumes at least one character. -/
def replaceAuxL (pat rep : List Char) : Nat → List Char → List Char
  | _, [] => []
  | 0, s => s
  | Nat.succ fuel, c :: rest =>
    if pat.isPrefixOf (c :: rest) then
      rep ++ replaceAuxL pat rep fuel (List.drop (pat.length - 1) rest)
    else c :: replaceAuxL pat rep fuel rest

/-- Models Rust `s.replace(pat, to)`: replaces every (leftmost,
non-overlapping) occurrence of `pat`, not only a leading one. -/
def strReplace (s pat rep : String) : String :=
  String.mk (replaceAuxL pat.data rep.data s.data.length s.data)

/-- Space-joins a token list; models `Vec::join(" ")`. -/
def joinSpace : List String → String
  | [] => ""
  | [x] => x
  | x :: y :: rest => x ++ " " ++ joinSpace (y :: rest)

/-- Splits a character list at every occurrence of the separator char. -/
def splitCharAux (sep : Char) : List Char → List Char → List (List Char)
  | [], cur => [cur.reverse]
  | c :: rest, cur =>
    if c = sep then cur.reverse :: splitCharAux sep rest []
    else splitCharAux sep rest (c :: cur)

/-- Joins character-list pieces with a separator char (inverse of
`splitCharAux` on the pieces kept). -/
def joinWithCharL (sep : Char) : List (List Char) → List Char
  | [] => []
  | [x] => x
  | x :: y :: rest => x ++ sep :: joinWithCharL sep (y :: rest)

/-- Models `process_info.rfind('.')` followed by the two slices around it
(src/src/lib.rs lines 306-308): everything before the last dot and
everything after it; `none` when the string holds no dot. -/
def rsplitLastDot (s : String) : Option (String × String) :=
  let pieces := splitCharAux '.' s.data []
  match pieces with
  | [] => none
  | [_] => none
  | _ :: _ :: _ =>
    match pieces.getLast? with
    | none => none
    | some lastPiece =>
        some (String.mk (joinWithCharL '.' pieces.dropLast), String.mk lastPiece)

/-- Models Rust `s.parse::<u32>()`: optional leading plus sign, at least
one ASCII digit, value below 2^32. -/
def parseU32 (s : String) : Option Nat :=
  let cs := match s.data with
            | '+' :: rest => rest
            | l => l
  if cs.isEmpty then none
  else if cs.all Char.isDigit then
    let n := cs.foldl (fun acc c => acc * 10 + (c.toNat - 48)) 0
    if n < 4294967296 then some n else none
  else none

/-- Structured trace event (src/src/lib.rs lines 22-30). The Rust u32 pid
is modelled as a Nat (the parser enforces the 2^32 bound). -/
structure FsEvent where
  timestamp : String
  process_name : String
  pid : Nat
  operation : String
  path : String
  result : String
deriving DecidableEq

/-- Operation categories (src/src/lib.rs lines 32-43). -/
inductive OperationType where
  | Read
  | Write
  | Create
  | Delete
  | Move
  | Access
  | Metadata
  | Chmod
  | All
deriving DecidableEq

/-- Category membership predicate (src/src/lib.rs lines 58-116). Each
category is an independent list of exact mnemonics; `Write` additionally
accepts any mnemonic with literal prefix WrData[. -/
def OperationType.matches_operation : OperationType → String → Bool
  | .All, _ => true
  | .Read, op =>
      op == "read" || op == "pread" || op == "readv" || op == "preadv" ||
      op == "RdData" || op == "RdMeta"
  | .Write, op =>
      (op == "write" || op == "pwrite" || op == "writev" || op == "pwritev" ||
       op == "WrData" || op == "WrMeta" || op == "ftruncate" || op == "rename" ||
       op == "unlink" || op == "chmod_extended") || strStartsWith op "WrData["
  | .Create, op =>
      op == "open" || op == "creat" || op == "mkdir" || op == "mkfifo" ||
      op == "mknod" || op == "symlink" || op == "link"
  | .Delete, op => op == "unlink" || op == "rmdir" || op == "remove"
  | .Move, op => op == "rename" || op == "renameat"
  | .Access, op =>
      op == "access" || op == "faccessat" || op == "stat" || op == "stat64" ||
      op == "lstat" || op == "lstat64" || op == "fstat" || op == "fstat64"
  | .Metadata, op =>
      op == "stat" || op == "stat64" || op == "lstat" || op == "lstat64" ||
      op == "fstat" || op == "fstat64" || op == "getxattr" || op == "setxattr" ||
      op == "listxattr" || op == "removexattr" || op == "getattrlist" ||
      op == "setattrlist"
  | .Chmod, op => op == "chmod" || op == "chmod_extended"

/-- Filter configuration (src/src/lib.rs lines 118-126). -/
structure FsUsageConfig where
  watch_paths : List String
  watch_pids : List Nat
  exclude_pids : List Nat
  exclude_processes : List String
  operation_types : List OperationType
  exact_path_matching : Bool

/-- Default configuration (src/src/lib.rs lines 128-143). -/
def FsUsageConfig.default : FsUsageConfig :=
  ⟨[], [], [], ["mds", "mdworker", "fseventsd"], [OperationType.All], false⟩

/-- Configuration produced by `FsUsageMonitorBuilder::new`
(src/src/builder.rs lines 9-13), which starts from the default. -/
def FsUsageMonitorBuilder_new_config : FsUsageConfig :=
  FsUsageConfig.default

/-- Models Rust `s.trim_end_matches('/')`. -/
def trimEndSlash (s : String) : String :=
  String.mk (s.data.reverse.dropWhile (fun c => c = '/')).reverse

/-- Models `std::path::Path::new(s).file_name()`: the final path
component, unless it is `..` or the path has no component. -/
def fileNameOf (s : String) : Option String :=
  let comps := (splitCharAux '/' s.data []).filter
    (fun c => !(c.isEmpty) && !(c == ['.']))
  match comps.getLast? with
  | none => none
  | some c => if c == ['.', '.'] then none else some (String.mk c)

/-- Event filter (src/src/lib.rs lines 441-516). Compiled glob patterns
are external library artifacts, modelled abstractly as Boolean path
predicates. Note the filter never consults the event's process name. -/
def should_send_event (event : FsEvent) (patterns : List (String → Bool))
    (config : FsUsageConfig) : Bool :=
  if config.exclude_pids.contains event.pid then false
  else if !config.watch_pids.isEmpty && !config.watch_pids.contains event.pid then false
  else if !config.operation_types.contains OperationType.All &&
          !config.operation_types.any (fun t => t.matches_operation event.operation) then
    false
  else if config.watch_paths.isEmpty && patterns.isEmpty then true
  else if config.exact_path_matching && !config.watch_paths.isEmpty then
    config.watch_paths.any (fun wp =>
      strContainsSub event.path (trimEndSlash wp ++ "/") ||
      strContainsSub event.path (((fileNameOf wp).getD wp) ++ "/"))
  else patterns.any (fun p => p event.path)

/-- Scanned token range of the data-transfer variant: indices strictly
between 1 and the final three tokens (src/src/lib.rs lines 316-319). -/
def scannedWr (parts : List String) : List String :=
  (parts.drop 2).take (parts.length - 5)

/-- Scanned token range of the generic variant: indices strictly between
1 and the final two tokens (src/src/lib.rs lines 360-366). -/
def scannedGen (parts : List String) : List String :=
  (parts.drop 2).take (parts.length - 4)

/-- Token-skip predicate of the generic variant (src/src/lib.rs lines
368-379): fully bracketed tokens, F=/B=/D= metadata, and the
single-character W/R flags. -/
def skipTok (p : String) : Bool :=
  (strStartsWith p "[" && strEndsWith p "]") ||
  strStartsWith p "F=" || strStartsWith p "B=" || strStartsWith p "D=" ||
  (p.data.length == 1 && (p == "W" || p == "R"))

/-- Tokens the data-transfer scan passes over while a device node has
been sighted: D=/B= metadata, further device nodes, and tokens without a
path separator. -/
def wrSkip (p : String) : Bool :=
  strStartsWith p "D=" || strStartsWith p "B=" || strStartsWith p "/dev/" ||
  !(strContainsChar p '/')

/-- Tokens the data-transfer scan records while no device node has been
sighted: not D=/B= metadata and containing a path separator. -/
def wrKeep (p : String) : Bool :=
  !(strStartsWith p "D=") && !(strStartsWith p "B=") && strContainsChar p '/'

/-- Data-transfer scan loop (src/src/lib.rs lines 316-342). The Boolean
tracks device_path_seen, the accumulator the current actual_path; after a
device sighting the first separator-bearing token is returned (break),
before a sighting each separator-bearing token overwrites the
accumulator. -/
def wrDataScan : List String → Bool → Option String → Option String
  | [], _, acc => acc
  | p :: rest, seen, acc =>
    if strStartsWith p "D=" || strStartsWith p "B=" then wrDataScan rest seen acc
    else if strStartsWith p "/dev/" then wrDataScan rest true acc
    else if seen && strContainsChar p '/' then some p
    else if !seen && strContainsChar p '/' then wrDataScan rest seen (some p)
    else wrDataScan rest seen acc

/-- Generic-variant accumulation loop (src/src/lib.rs lines 360-386).
Skip-worthy tokens are passed over even after accumulation has started;
the Boolean tracks found_path_start. -/
def genericScan : List String → Bool → List String
  | [], _ => []
  | p :: rest, found =>
    if skipTok p then genericScan rest found
    else if strContainsChar p '/' || found then p :: genericScan rest true
    else genericScan rest found

/-- Path post-processing of the generic variant (src/src/lib.rs lines
393-419), applied to the space-joined accumulated tokens: truncate before
the first Err# and trim; when the remainder starts with a bracketed
negative descriptor, keep the text between the first and second closing
brackets (rejecting when there is none); then, when the remainder starts
with private/tmp or /private/tmp, replace every occurrence of that
substring by /tmp; reject the empty path. -/
def cleanup_path (joined : String) : Option String :=
  let path := strTrim (String.mk (takeUntilSubList ("Err#".data) joined.data))
  let pathOpt := if strStartsWith path "[-" then nth1Str path "]" else some path
  match pathOpt with
  | none => none
  | some path2 =>
    let path3 :=
      if strStartsWith path2 "private/tmp" then strReplace path2 "private/tmp" "/tmp"
      else if strStartsWith path2 "/private/tmp" then strReplace path2 "/private/tmp" "/tmp"
      else path2
    if path3 == "" then none else some path3

/-- Result extraction (src/src/lib.rs lines 421-429): when the line
contains Err#, the first whitespace token of the segment between the
first and second occurrences of the marker, otherwise the literal OK. -/
def resultOf (line : String) : Option String :=
  if strContainsSub line "Err#" then
    (nth1Str line "Err#").bind (fun after => (splitWhitespace after).head?)
  else some "OK"

/-- Tail of the generic parsing branch (src/src/lib.rs lines 356-438):
accumulate path tokens, reject when none, post-process the joined path,
then extract the result code. -/
def genericFinish (line : String) (parts : List String)
    (timestamp operation process_name : String) (pid : Nat) : Option FsEvent :=
  let path_parts := genericScan (scannedGen parts) false
  if path_parts.isEmpty then none
  else
    match cleanup_path (joinSpace path_parts) with
    | none => none
    | some path =>
      match resultOf line with
      | none => none
      | some result => some (FsEvent.mk timestamp process_name pid operation path result)

/-- Line parser (src/src/lib.rs lines 288-439). Tokenizes the line,
rejects fewer than four tokens, decodes process.pid from the final token,
then runs the data-transfer fast path for WrData/RdData mnemonics
(falling through to the generic branch when it finds no path). -/
def parse_fs_usage_line (line : String) : Option FsEvent :=
  let parts := splitWhitespace line
  if parts.length < 4 then none
  else
    match parts with
    | timestamp :: operation :: _ =>
      match parts.getLast? with
      | none => none
      | some process_info =>
        match rsplitLastDot process_info with
        | none => none
        | some (process_name, pidStr) =>
          match parseU32 pidStr with
          | none => none
          | some pid =>
            if strStartsWith operation "WrData" || strStartsWith operation "RdData" then
              match wrDataScan (scannedWr parts) false none with
              | some path =>
                  some (FsEvent.mk timestamp process_name pid operation path "OK")
              | none => genericFinish line parts timestamp operation process_name pid
            else genericFinish line parts timestamp operation process_name pid
    | _ => none

/-- Outcome of terminating and awaiting the tracer subprocess, modelling
the fallible kill/wait calls on std::process::Child. -/
structure ProcHandle where
  kill_ok : Bool
  wait_ok : Bool
deriving DecidableEq

/-- Monitor state relevant to shutdown: the shared running flag and the
optionally-held subprocess handle (src/src/lib.rs lines 145-152). -/
structure MonitorState where
  is_running : Bool
  process : Option ProcHandle
deriving DecidableEq

/-- FsUsageMonitor::stop (src/src/lib.rs lines 251-261): clear the
running flag first; then, when a handle is held, take it (clearing the
slot) and kill and wait, surfacing either failure as the returned error
after the flag and slot are already cleared. -/
def MonitorState.stop (m : MonitorState) : MonitorState × Except String Unit :=
  match m.process with
  | none => (MonitorState.mk false none, Except.ok ())
  | some p =>
    if p.kill_ok = false then
      (MonitorState.mk false none, Except.error "Failed to kill fs_usage process")
    else if p.wait_ok = false then
      (MonitorState.mk false none, Except.error "Failed to wait for process")
    else (MonitorState.mk false none, Except.ok ())

theorem getLast?_cons_eq (t : String) (l : List String) :
    (t :: l).getLast? = match l.getLast? with
      | some x => some x
      | none => some t := by
  cases l with
  | nil => rfl
  | cons h tl =>
    rw [List.getLast?_cons_cons]
    cases e : (h :: tl).getLast? with
    | none => exact absurd (List.getLast?_eq_none_iff.mp e) (by simp)
    | some x => rfl

theorem genericScan_found (ts : List String) :
    genericScan ts true = ts.filter (fun t => !(skipTok t)) := by
  induction ts with
  | nil => rfl
  | cons p rest ih =>
    by_cases h : skipTok p
    · simp [genericScan, h, ih, List.filter_cons]
    · simp [genericScan, h, ih, List.filter_cons]

theorem genericScan_start (ts : List String) :
    genericScan ts false =
      (ts.dropWhile (fun t => skipTok t || !(strContainsChar t '/'))).filter
        (fun t => !(skipTok t)) := by
  induction ts with
  | nil => rfl
  | cons p rest ih =>
    by_cases hs : skipTok p
    · simp [genericScan, hs, ih, List.dropWhile_cons]
    · cases hc : strContainsChar p '/' with
      | true =>
        simp [genericScan, hs, hc, List.dropWhile_cons, List.filter_cons,
          genericScan_found]
      | false =>
        simp [genericScan, hs, hc, ih, List.dropWhile_cons]

theorem wrDataScan_nodev (ts : List String) (acc : Option String)
    (h : ∀ u ∈ ts, strStartsWith u "/dev/" = false) :
    wrDataScan ts false acc = match (ts.filter wrKeep).getLast? with
      | some x => some x
      | none => acc := by
  induction ts generalizing acc with
  | nil => rfl
  | cons u rest ih =>
    have hu : strStartsWith u "/dev/" = false := h u (by simp)
    have hrest : ∀ v ∈ rest, strStartsWith v "/dev/" = false :=
      fun v hv => h v (by simp [hv])
    cases hd : strStartsWith u "D=" with
    | true =>
      have hk : wrKeep u = false := by simp [wrKeep, hd]
      simp only [wrDataScan, hd, Bool.true_or, if_true]
      rw [ih acc hrest, List.filter_cons, if_neg (by simp [hk])]
    | false =>
      cases hb : strStartsWith u "B=" with
      | true =>
        have hk : wrKeep u = false := by simp [wrKeep, hb]
        simp only [wrDataScan, hd, hb, Bool.false_or, if_true]
        rw [ih acc hrest, List.filter_cons, if_neg (by simp [hk])]
      | false =>
        cases hc : strContainsChar u '/' with
        | false =>
          have hk : wrKeep u = false := by simp [wrKeep, hc]
          simp only [wrDataScan, hd, hb, hu, hc]
          simp only [Bool.or_self, Bool.false_and, Bool.not_false, Bool.true_and,
            Bool.false_eq_true, if_false]
          rw [ih acc hrest, List.filter_cons, if_neg (by simp [hk])]
        | true =>
          have hk : wrKeep u = true := by simp [wrKeep, hd, hb, hc]
          simp only [wrDataScan, hd, hb, hu, hc]
          simp only [Bool.or_self, Bool.false_and, Bool.not_false, Bool.true_and,
            Bool.false_eq_true, if_false, if_true]
          rw [ih (some u) hrest, List.filter_cons, if_pos (by simp [hk]),
            getLast?_cons_eq]
          cases (rest.filter wrKeep).getLast? <;> rfl

theorem devStart_not_meta (s : String) (h : strStartsWith s "/dev/" = true) :
    strStartsWith s "D=" = false ∧ strStartsWith s "B=" = false := by
  unfold strStartsWith at h ⊢
  cases hd : s.data with
  | nil => rw [hd] at h; exact absurd h (by decide)
  | cons c cs =>
    rw [hd] at h
    simp only [List.isPrefixOf, Bool.and_eq_true, beq_iff_eq] at h
    obtain ⟨hc, _⟩ := h
    subst hc
    constructor <;> simp [List.isPrefixOf]

theorem wrDataScan_skip (u : String) (rest : List String) (acc : Option String)
    (hsk : wrSkip u = true) :
    wrDataScan (u :: rest) true acc = wrDataScan rest true acc := by
  cases hd : strStartsWith u "D=" <;>
  cases hb : strStartsWith u "B=" <;>
  cases hdev : strStartsWith u "/dev/" <;>
  cases hc : strContainsChar u '/' <;>
  simp_all [wrDataScan, wrSkip]

theorem wrDataScan_seen (ts : List String) (acc : Option String) (t : String)
    (h : (ts.dropWhile wrSkip).head? = some t) :
    wrDataScan ts true acc = some t := by
  induction ts generalizing acc with
  | nil => simp [List.dropWhile] at h
  | cons u rest ih =>
    cases hsk : wrSkip u with
    | true =>
      rw [List.dropWhile_cons, if_pos hsk] at h
      rw [wrDataScan_skip u rest acc hsk]
      exact ih acc h
    | false =>
      rw [List.dropWhile_cons, if_neg (by simp [hsk])] at h
      simp only [List.head?_cons, Option.some_inj] at h
      subst h
      have hd : strStartsWith u "D=" = false := by
        cases hv : strStartsWith u "D="
        · rfl
        · simp [wrSkip, hv] at hsk
      have hb : strStartsWith u "B=" = false := by
        cases hv : strStartsWith u "B="
        · rfl
        · simp [wrSkip, hv] at hsk
      have hdev : strStartsWith u "/dev/" = false := by
        cases hv : strStartsWith u "/dev/"
        · rfl
        · simp [wrSkip, hv] at hsk
      have hc : strContainsChar u '/' = true := by
        cases hv : strContainsChar u '/'
        · simp [wrSkip, hv] at hsk
        · rfl
      simp [wrDataScan, hd, hb, hdev, hc]

theorem wrDataScan_device (pre : List String) (dev : String) (post : List String)
    (acc : Option String) (t : String)
    (hpre : ∀ u ∈ pre, strStartsWith u "/dev/" = false)
    (hdev : strStartsWith dev "/dev/" = true)
    (hfind : (post.dropWhile wrSkip).head? = some t) :
    wrDataScan (pre ++ dev :: post) false acc = some t := by
  induction pre generalizing acc with
  | nil =>
    have hmeta := devStart_not_meta dev hdev
    simp only [List.nil_append, wrDataScan, hmeta.1, hmeta.2, Bool.or_self,
      Bool.false_eq_true, if_false, hdev, if_true]
    exact wrDataScan_seen post acc t hfind
  | cons u pre' ih =>
    have hu : strStartsWith u "/dev/" = false := hpre u (by simp)
    have hpre' : ∀ v ∈ pre', strStartsWith v "/dev/" = false :=
      fun v hv => hpre v (by simp [hv])
    cases hd : strStartsWith u "D=" <;>
    cases hb : strStartsWith u "B=" <;>
    cases hc : strContainsChar u '/' <;>
    simp_all [List.cons_append, wrDataScan, ih]

theorem genericFinish_eq {line : String} {parts : List String}
    {ts op pn : String} {pid : Nat} {e : FsEvent}
    (h : genericFinish line parts ts op pn pid = some e) :
    e.timestamp = ts ∧ e.process_name = pn ∧ e.pid = pid ∧ e.operation = op ∧
    cleanup_path (joinSpace (genericScan (scannedGen parts) false)) = some e.path ∧
    resultOf line = some e.result := by
  simp only [genericFinish] at h
  rcases hcp : cleanup_path (joinSpace (genericScan (scannedGen parts) false)) with _ | path <;>
  rcases hr : resultOf line with _ | result <;>
  rcases hpp : (genericScan (scannedGen parts) false).isEmpty with _ | _ <;>
  simp only [hcp, hr, hpp, Bool.false_eq_true, if_false, if_true] at h <;>
  all_goals first
  | exact Option.noConfusion h
  | (have h2 := Option.some.inj h
     subst h2
     exact ⟨rfl, rfl, rfl, rfl, rfl, rfl⟩)

theorem parse_data_branch {line : String} {e : FsEvent} {p : String}
    (h : parse_fs_usage_line line = some e)
    (hscan : wrDataScan (scannedWr (splitWhitespace line)) false none = some p)
    (hop : strStartsWith e.operation "WrData" = true ∨
      strStartsWith e.operation "RdData" = true) :
    e.path = p ∧ e.result = "OK" := by
  simp only [parse_fs_usage_line] at h
  split at h
  · exact Option.noConfusion h
  · split at h
    · split at h
      · exact Option.noConfusion h
      · split at h
        · exact Option.noConfusion h
        · split at h
          · exact Option.noConfusion h
          · split at h
            · split at h
              · rename_i path heqscan
                rw [hscan] at heqscan
                have hp := Option.some.inj heqscan
                subst hp
                have h2 := Option.some.inj h
                subst h2
                exact ⟨rfl, rfl⟩
              · rename_i heqscan
                rw [hscan] at heqscan
                exact Option.noConfusion heqscan
            · rename_i hcond
              have hfe := genericFinish_eq h
              rcases hop with hop | hop <;>
              · rw [hfe.2.2.2.1] at hop
                simp [hop] at hcond
    · exact Option.noConfusion h

theorem parse_generic_fields {line : String} {e : FsEvent}
    (h : parse_fs_usage_line line = some e)
    (hop1 : strStartsWith e.operation "WrData" = false)
    (hop2 : strStartsWith e.operation "RdData" = false) :
    cleanup_path (joinSpace (genericScan (scannedGen (splitWhitespace line)) false)) =
      some e.path ∧
    resultOf line = some e.result := by
  simp only [parse_fs_usage_line] at h
  split at h
  · exact Option.noConfusion h
  · split at h
    · split at h
      · exact Option.noConfusion h
      · split at h
        · exact Option.noConfusion h
        · split at h
          · exact Option.noConfusion h
          · split at h
            · split at h
              · rename_i hcond path heqscan
                have h2 := Option.some.inj h
                subst h2
                simp_all
              · have hfe := genericFinish_eq h
                exact ⟨hfe.2.2.2.2.1, hfe.2.2.2.2.2⟩
            · have hfe := genericFinish_eq h
              exact ⟨hfe.2.2.2.2.1, hfe.2.2.2.2.2⟩
    · exact Option.noConfusion h

/-- C5: the classifier is membership-list based: All accepts every
mnemonic; Write accepts exactly its ten listed mnemonics plus any
mnemonic with literal prefix WrData[; Delete accepts exactly unlink,
rmdir, remove; Move accepts exactly rename, renameat. -/
theorem C5_classifier :
    (∀ m : String, OperationType.All.matches_operation m = true) ∧
    (∀ m : String, OperationType.Write.matches_operation m = true ↔
      (m = "write" ∨ m = "pwrite" ∨ m = "writev" ∨ m = "pwritev" ∨ m = "WrData" ∨
       m = "WrMeta" ∨ m = "ftruncate" ∨ m = "rename" ∨ m = "unlink" ∨
       m = "chmod_extended" ∨ strStartsWith m "WrData[" = true)) ∧
    (∀ m : String, OperationType.Delete.matches_operation m = true ↔
      (m = "unlink" ∨ m = "rmdir" ∨ m = "remove")) ∧
    (∀ m : String, OperationType.Move.matches_operation m = true ↔
      (m = "rename" ∨ m = "renameat")) := by
  refine ⟨fun m => rfl, fun m => ?_, fun m => ?_, fun m => ?_⟩ <;>
    simp [OperationType.matches_operation, Bool.or_eq_true, beq_iff_eq, or_assoc]

/-- C10: the default configuration pre-excludes exactly the processes
mds, mdworker and fseventsd, watches all operation categories, disables
exact path matching, and has empty watch and exclusion sets; the builder
with no explicit settings starts from this default. -/
theorem C10_default_config :
    FsUsageConfig.default.exclude_processes = ["mds", "mdworker", "fseventsd"] ∧
    FsUsageConfig.default.operation_types = [OperationType.All] ∧
    FsUsageConfig.default.exact_path_matching = false ∧
    FsUsageConfig.default.watch_paths = [] ∧
    FsUsageConfig.default.watch_pids = [] ∧
    FsUsageConfig.default.exclude_pids = [] ∧
    FsUsageMonitorBuilder_new_config.exclude_processes =
      ["mds", "mdworker", "fseventsd"] :=
  ⟨rfl, rfl, rfl, rfl, rfl, rfl, rfl⟩

/-- C4 counterexample: an event whose process name mds lies in the
default exclude set is nevertheless accepted by the filter — the filter
never consults process names. -/
theorem C4_counterexample :
    FsUsageConfig.default.exclude_processes.contains "mds" = true ∧
    should_send_event (FsEvent.mk "t" "mds" 1 "open" "/x" "OK") []
      FsUsageConfig.default = true := by
  decide

/-- C4 (amended): the event filter is invariant under the event's
process name — exclude-process handling is not part of the filter (it is
forwarded to the tracer command line instead), so membership of the
process name in exclude_processes never causes rejection. -/
theorem C4_filter_amended :
    ∀ (e : FsEvent) (patterns : List (String → Bool)) (config : FsUsageConfig)
      (name : String),
    should_send_event
        (FsEvent.mk e.timestamp name e.pid e.operation e.path e.result)
        patterns config =
      should_send_event e patterns config := by
  intro e patterns config name
  cases e
  rfl

/-- C6: the filter rejects any event whose pid is excluded, regardless
of everything else; and accepts any event passing the pid and category
checks when no watch paths and no compiled patterns are configured,
regardless of its path. -/
theorem C6_shortcircuit :
    ∀ (e : FsEvent) (patterns : List (String → Bool)) (config : FsUsageConfig),
    (config.exclude_pids.contains e.pid = true →
      should_send_event e patterns config = false) ∧
    (config.exclude_pids.contains e.pid = false →
      (config.watch_pids = [] ∨ config.watch_pids.contains e.pid = true) →
      (config.operation_types.contains OperationType.All = true ∨
        config.operation_types.any (fun t => t.matches_operation e.operation) = true) →
      config.watch_paths = [] → patterns = [] →
      should_send_event e patterns config = true) := by
  intro e patterns config
  constructor
  · intro h
    unfold should_send_event
    rw [h]
    simp
  · intro h1 h2 h3 h4 h5
    have hpid : (!config.watch_pids.isEmpty && !config.watch_pids.contains e.pid) = false := by
      rcases h2 with h2 | h2
      · rw [h2]; rfl
      · rw [h2]; simp
    have hopc : (!config.operation_types.contains OperationType.All &&
        !config.operation_types.any (fun t => t.matches_operation e.operation)) = false := by
      rcases h3 with h3 | h3
      · rw [h3]; rfl
      · rw [h3]; simp
    unfold should_send_event
    rw [h1, hpid, hopc, h4, h5]
    simp

/-- C6 witness: instantiation at concrete events and configurations:
pid 5 in exclude_pids is rejected; with the default (pathless)
configuration and no patterns the event is accepted. -/
theorem C6_shortcircuit_witness :
    should_send_event (FsEvent.mk "t" "p" 5 "open" "/x" "OK") []
      (FsUsageConfig.mk [] [] [5] [] [OperationType.All] false) = false ∧
    should_send_event (FsEvent.mk "t" "p" 5 "open" "/x" "OK") []
      FsUsageConfig.default = true :=
  ⟨(C6_shortcircuit (FsEvent.mk "t" "p" 5 "open" "/x" "OK") []
      (FsUsageConfig.mk [] [] [5] [] [OperationType.All] false)).1 (by decide),
   (C6_shortcircuit (FsEvent.mk "t" "p" 5 "open" "/x" "OK") []
      FsUsageConfig.default).2 (by decide) (Or.inl rfl) (Or.inl (by decide)) rfl rfl⟩

/-- C2 counterexample: on the line with scanned tokens a/b, [x], c the
bracketed token [x] appearing after path accumulation started is still
skipped: parse yields path a/b c rather than the claimed a/b [x] c. -/
theorem C2_counterexample :
    parse_fs_usage_line "t op a/b [x] c 0.1 p.1" =
      some (FsEvent.mk "t" "p" 1 "op" "a/b c" "OK") ∧
    ("a/b c" : String) ≠ "a/b [x] c" := by
  decide

/-- C2 (amended): in the generic variant the skip rules (fully bracketed
tokens, F=/B=/D= prefixes, the single-character W/R flags) remain in
force after accumulation starts: accumulation begins at the first
non-skipped token containing a slash, and from there every non-skipped
scanned token is accumulated while skip-worthy tokens are dropped. -/
theorem C2_path_amended :
    ∀ ts : List String,
    genericScan ts false =
      (ts.dropWhile (fun t => skipTok t || !(strContainsChar t '/'))).filter
        (fun t => !(skipTok t)) :=
  genericScan_start

/-- C1 counterexample: a data-transfer line containing Err#2 is parsed
through the fast path with result OK, not the claimed error token 2. -/
theorem C1_counterexample :
    parse_fs_usage_line "12:00:00.0 WrData D=0x1 /dev/disk1 a/b Err#2 0.1 W foo.1" =
      some (FsEvent.mk "12:00:00.0" "foo" 1 "WrData" "a/b" "OK") ∧
    strContainsSub "12:00:00.0 WrData D=0x1 /dev/disk1 a/b Err#2 0.1 W foo.1"
      "Err#" = true ∧
    (nth1Str "12:00:00.0 WrData D=0x1 /dev/disk1 a/b Err#2 0.1 W foo.1" "Err#").bind
      (fun after => (splitWhitespace after).head?) = some "2" ∧
    ("OK" : String) ≠ "2" := by
  decide

/-- C1 (amended): for every accepted line whose mnemonic does not begin
with WrData or RdData, the result is the first whitespace token after
the first Err# marker when the line contains one and the literal OK
otherwise; lines accepted through the data-transfer fast path carry
result OK unconditionally. -/
theorem C1_result_amended :
    ∀ (line : String) (e : FsEvent),
    parse_fs_usage_line line = some e →
    ((strStartsWith e.operation "WrData" = false ∧
        strStartsWith e.operation "RdData" = false) →
      (strContainsSub line "Err#" = false → e.result = "OK") ∧
      (strContainsSub line "Err#" = true →
        (nth1Str line "Err#").bind (fun after => (splitWhitespace after).head?) =
          some e.result)) ∧
    (∀ p, wrDataScan (scannedWr (splitWhitespace line)) false none = some p →
      (strStartsWith e.operation "WrData" = true ∨
        strStartsWith e.operation "RdData" = true) →
      e.result = "OK") := by
  intro line e h
  constructor
  · intro hop
    have hres := (parse_generic_fields h hop.1 hop.2).2
    unfold resultOf at hres
    by_cases hc : strContainsSub line "Err#" = true
    · rw [if_pos hc] at hres
      exact ⟨fun hfalse => absurd hc (by simp [hfalse]), fun _ => hres⟩
    · rw [if_neg hc] at hres
      have hok := (Option.some.inj hres).symm
      exact ⟨fun _ => hok, fun htrue => absurd htrue hc⟩
  · intro p hscan hop
    exact (parse_data_branch h hscan hop).2

/-- C1 witness: a generic line carrying Err#2 whose parsed result is the
token 2 following the marker. -/
theorem C1_result_amended_witness :
    (nth1Str "12:00:00.0 open /tmp/a Err#2 0.001 foo.12" "Err#").bind
      (fun after => (splitWhitespace after).head?) = some "2" :=
  ((C1_result_amended "12:00:00.0 open /tmp/a Err#2 0.001 foo.12"
      (FsEvent.mk "12:00:00.0" "foo" 12 "open" "/tmp/a" "2") (by decide)).1
    (by decide)).2 (by decide)

/-- C3 counterexample: a data-transfer line with no device node and two
slash-bearing scanned tokens a/b and c/d parses to the last one, c/d,
not the claimed first one. -/
theorem C3_counterexample :
    parse_fs_usage_line "t WrData B=0x1 a/b c/d 0.1 W p.1" =
      some (FsEvent.mk "t" "p" 1 "WrData" "c/d" "OK") ∧
    scannedWr (splitWhitespace "t WrData B=0x1 a/b c/d 0.1 W p.1") =
      ["B=0x1", "a/b", "c/d"] ∧
    ("c/d" : String) ≠ "a/b" := by
  decide

/-- C3 (amended): in the data-transfer variant, when no scanned token
begins with /dev/, the event's path is the last scanned token containing
a slash (tokens beginning with D= or B= excluded), and the result is OK. -/
theorem C3_path_amended :
    ∀ (line : String) (e : FsEvent) (t : String),
    parse_fs_usage_line line = some e →
    (strStartsWith e.operation "WrData" = true ∨
      strStartsWith e.operation "RdData" = true) →
    (∀ u ∈ scannedWr (splitWhitespace line), strStartsWith u "/dev/" = false) →
    ((scannedWr (splitWhitespace line)).filter wrKeep).getLast? = some t →
    e.path = t ∧ e.result = "OK" := by
  intro line e t h hop hnodev hlast
  have hscan := wrDataScan_nodev (scannedWr (splitWhitespace line)) none hnodev
  rw [hlast] at hscan
  exact parse_data_branch h hscan hop

/-- C3 witness: instantiation at the two-candidate line, where the last
slash-bearing token c/d is the parsed path. -/
theorem C3_path_amended_witness :
    FsEvent.path (FsEvent.mk "t" "p" 1 "WrData" "c/d" "OK") = "c/d" ∧
    FsEvent.result (FsEvent.mk "t" "p" 1 "WrData" "c/d" "OK") = "OK" :=
  C3_path_amended "t WrData B=0x1 a/b c/d 0.1 W p.1"
    (FsEvent.mk "t" "p" 1 "WrData" "c/d" "OK") "c/d"
    (by decide) (Or.inl (by decide)) (by decide) (by decide)

/-- C7 counterexample: after the device node /dev/d the first
slash-bearing token is D=a/b, yet parse skips it as metadata and returns
c/d — the claimed first-such-token reading fails. -/
theorem C7_counterexample :
    parse_fs_usage_line "t WrData /dev/d D=a/b c/d 0.1 W p.1" =
      some (FsEvent.mk "t" "p" 1 "WrData" "c/d" "OK") ∧
    scannedWr (splitWhitespace "t WrData /dev/d D=a/b c/d 0.1 W p.1") =
      ["/dev/d", "D=a/b", "c/d"] ∧
    strStartsWith "/dev/d" "/dev/" = true ∧
    strContainsChar "D=a/b" '/' = true ∧
    ("c/d" : String) ≠ "D=a/b" := by
  decide

/-- C7 (amended): in a data-transfer line whose scanned range is a
device-free prefix, then a /dev/ token, then a tail, the event's path is
the first tail token that contains a slash and is not skipped (not
beginning with D=, B=, or /dev/), never the device node itself, and the
result is OK. -/
theorem C7_device_amended :
    ∀ (line : String) (e : FsEvent) (pre : List String) (dev : String)
      (post : List String) (t : String),
    parse_fs_usage_line line = some e →
    (strStartsWith e.operation "WrData" = true ∨
      strStartsWith e.operation "RdData" = true) →
    scannedWr (splitWhitespace line) = pre ++ dev :: post →
    (∀ u ∈ pre, strStartsWith u "/dev/" = false) →
    strStartsWith dev "/dev/" = true →
    (post.dropWhile wrSkip).head? = some t →
    e.path = t ∧ e.result = "OK" := by
  intro line e pre dev post t h hop hsplit hpre hdev hfind
  have hscan : wrDataScan (scannedWr (splitWhitespace line)) false none = some t := by
    rw [hsplit]
    exact wrDataScan_device pre dev post none t hpre hdev hfind
  exact parse_data_branch h hscan hop

/-- C7 witness: instantiation at a device line whose tail token x/y is
returned as the path with result OK. -/
theorem C7_device_amended_witness :
    FsEvent.path (FsEvent.mk "t" "p" 1 "WrData" "x/y" "OK") = "x/y" ∧
    FsEvent.result (FsEvent.mk "t" "p" 1 "WrData" "x/y" "OK") = "OK" :=
  C7_device_amended "t WrData D=1 /dev/d x/y 0.1 W p.1"
    (FsEvent.mk "t" "p" 1 "WrData" "x/y" "OK") ["D=1"] "/dev/d" ["x/y"] "x/y"
    (by decide) (Or.inl (by decide)) (by decide) (by decide) (by decide) (by decide)

/-- C8 counterexample: on a path token holding a second closing bracket
and a second private/tmp occurrence, parse keeps only the segment before
the second bracket and rewrites every private/tmp occurrence, yielding
/tmp/a/tmp/b instead of the claimed /tmp/a/private/tmp/b]c. -/
theorem C8_counterexample :
    parse_fs_usage_line "t op [-2]/private/tmp/a/private/tmp/b]c 0.1 p.1" =
      some (FsEvent.mk "t" "p" 1 "op" "/tmp/a/tmp/b" "OK") ∧
    ("/tmp/a/tmp/b" : String) ≠ "/tmp/a/private/tmp/b]c" := by
  decide

/-- C8 (amended): the accepted path of every generic-branch line is the
accumulated space-joined tokens post-processed in order by cleanup_path:
truncation before the first Err# with trimming, then for a path starting
with a bracketed negative descriptor the segment strictly between the
first and second closing brackets (rejecting without one), then
replacement of every private/tmp occurrence when the path starts with
(/)private/tmp, then rejection of the empty path; the spec's example
line still yields /tmp/test123.txt. -/
theorem C8_cleanup_amended :
    (∀ (line : String) (e : FsEvent),
      parse_fs_usage_line line = some e →
      strStartsWith e.operation "WrData" = false →
      strStartsWith e.operation "RdData" = false →
      cleanup_path (joinSpace (genericScan (scannedGen (splitWhitespace line)) false)) =
        some e.path) ∧
    parse_fs_usage_line
        "23:52:52.781431 fstatat64 [ 2] [-2]/private/tmp/test123.txt 0.001226 touch.3523509" =
      some (FsEvent.mk "23:52:52.781431" "touch" 3523509 "fstatat64"
        "/tmp/test123.txt" "OK") := by
  constructor
  · intro line e h h1 h2
    exact (parse_generic_fields h h1 h2).1
  · decide

/-- C8 witness: instantiation at a line whose token private/tmp/x is
normalized to /tmp/x by the post-processing chain. -/
theorem C8_cleanup_amended_witness :
    cleanup_path (joinSpace (genericScan
      (scannedGen (splitWhitespace "t lstat64 private/tmp/x 0.1 a.2")) false)) =
      some "/tmp/x" :=
  C8_cleanup_amended.1 "t lstat64 private/tmp/x 0.1 a.2"
    (FsEvent.mk "t" "a" 2 "lstat64" "/tmp/x" "OK") (by decide) (by decide) (by decide)

/-- C9: stop always leaves the monitor with the running flag cleared and
no subprocess handle, even when killing or awaiting the subprocess
fails; a second stop is a no-op that succeeds, and stopping an
already-stopped monitor returns success without change. -/
theorem C9_stop_idempotent :
    ∀ m : MonitorState,
    (MonitorState.stop m).1.is_running = false ∧
    (MonitorState.stop m).1.process = none ∧
    MonitorState.stop (MonitorState.stop m).1 = ((MonitorState.stop m).1, Except.ok ()) ∧
    (m.is_running = false → m.process = none →
      MonitorState.stop m = (m, Except.ok ())) := by
  intro m
  obtain ⟨r, pr⟩ := m
  cases pr with
  | none =>
    refine ⟨rfl, rfl, rfl, fun h1 h2 => ?_⟩
    simp only at h1
    subst h1
    rfl
  | some p =>
    obtain ⟨k, w⟩ := p
    cases k <;> cases w <;>
      exact ⟨rfl, rfl, rfl, fun h1 h2 => absurd h2 (by simp)⟩

/-- C9 witness: stopping an already-stopped monitor returns success and
leaves the state unchanged. -/
theorem C9_stop_idempotent_witness :
    MonitorState.stop (MonitorState.mk false none) =
      (MonitorState.mk false none, Except.ok ()) :=
  (C9_stop_idempotent (MonitorState.mk false none)).2.2.2 rfl rfl
